import Mathlib

/-!
Verification of the core request pipeline of the deel-mcp-server repository
(`src/client.ts`): the TTL cache, the sliding-window rate limiter, URL/query
construction, and the retrying HTTP request loop `deelRequest`.

The embedding is shallow: the stateful TypeScript client is translated into
pure Lean functions with explicit state passing.  Time is modelled as `Int`
milliseconds (JS `Date.now()` values); each `await new Promise(setTimeout …)`
advances the clock by the (non-negative part of the) requested delay.  The
HTTP `fetch` call is abstracted by an oracle `Nat → FetchOutcome` giving, for
each attempt index, either a transport failure (the promise rejecting) or an
`HttpResponse`.  A response carries its status, its `Retry-After` header (as
`headers.get` returns it), its body text, and the result of `JSON.parse` on
that body (`none` models a parse failure).  Percent-encoding of query values
is not modelled (all values in the claims are URL-safe).
-/

/-- JSON values, the payloads moved through the pipeline. -/
inductive Json where
  | null
  | bool (b : Bool)
  | num (n : Int)
  | str (s : String)
  | arr (elems : List Json)
  | obj (fields : List (String × Json))

/-- JS truthiness of a value (used by `if (parsed.message)` etc.). -/
def jsTruthy : Json → Bool
  | .null => false
  | .bool b => b
  | .num n => n != 0
  | .str s => s != ""
  | .arr _ => true
  | .obj _ => true

/-- JS property access `v.k` for values produced by `JSON.parse`; `none` is
`undefined`.  (`null.k` throws instead; callers handle `.null` separately.) -/
def jsGetField (j : Json) (k : String) : Option Json :=
  match j with
  | .obj fs => (fs.find? (fun f => f.1 == k)).map (fun f => f.2)
  | _ => none

mutual

/-- JS `String(v)` / template-literal coercion of a value. -/
def jsToString : Json → String
  | .null => "null"
  | .bool b => if b then "true" else "false"
  | .num n => toString n
  | .str s => s
  | .arr xs => String.intercalate "," (jsToStringArrayElems xs)
  | .obj _ => "[object Object]"

/-- Elements of `Array.prototype.toString` (join with ","); `null` renders
as the empty string. -/
def jsToStringArrayElems : List Json → List String
  | [] => []
  | .null :: xs => "" :: jsToStringArrayElems xs
  | x :: xs => jsToString x :: jsToStringArrayElems xs

end

/-- Escaping of string contents for `JSON.stringify` (the common escapes). -/
def jsonEscape (s : String) : String :=
  String.join (s.data.map (fun c =>
    if c = '"' then "\\\""
    else if c = '\\' then "\\\\"
    else if c = '\n' then "\\n"
    else if c = '\t' then "\\t"
    else if c = '\r' then "\\r"
    else String.singleton c))

mutual

/-- `JSON.stringify` (used to render the `errors` field in error messages). -/
def jsonStringify : Json → String
  | .null => "null"
  | .bool b => if b then "true" else "false"
  | .num n => toString n
  | .str s => "\"" ++ jsonEscape s ++ "\""
  | .arr xs => "[" ++ String.intercalate "," (jsonStringifyList xs) ++ "]"
  | .obj fs => "\x7b" ++ String.intercalate "," (jsonStringifyFields fs) ++ "\x7d"

def jsonStringifyList : List Json → List String
  | [] => []
  | x :: xs => jsonStringify x :: jsonStringifyList xs

def jsonStringifyFields : List (String × Json) → List String
  | [] => []
  | f :: fs => ("\"" ++ jsonEscape f.1 ++ "\":" ++ jsonStringify f.2) :: jsonStringifyFields fs

end

/-- Leading decimal digits of a character list, `none` if there are none. -/
def leadingNat (cs : List Char) : Option Nat :=
  let ds := cs.takeWhile Char.isDigit
  if ds.isEmpty then none
  else some (ds.foldl (fun a c => a * 10 + (c.toNat - 48)) 0)

/-- JS `parseInt(s, 10)`: skip leading whitespace, optional sign, leading
digits; `none` models `NaN`. -/
def jsParseInt (s : String) : Option Int :=
  let cs := s.data.dropWhile (fun c => c = ' ' || c = '\t' || c = '\n' || c = '\r')
  match cs with
  | '-' :: rest => (leadingNat rest).map (fun n => -(n : Int))
  | '+' :: rest => (leadingNat rest).map (fun n => (n : Int))
  | _ => (leadingNat cs).map (fun n => (n : Int))

/-- JS `String.prototype.startsWith` (on the character-list view of strings). -/
def jsStartsWith (s pre : String) : Bool :=
  pre.data.isPrefixOf s.data

/-- Substring occurrence (`message.includes(needle)`-style), used to state
"the error message contains …". -/
def strContains (h n : String) : Prop :=
  n.data <:+: h.data

instance (h n : String) : Decidable (strContains h n) :=
  List.decidableInfix n.data h.data

/- ### The cache (`Map<string, {data, expiresAt}>`) -/

/-- One cache entry: payload plus absolute expiry time. -/
structure CacheEntry where
  data : Json
  expiresAt : Int

/-- The in-memory cache, a JS `Map` keyed by resolved URL
(association list in insertion order, keys unique by construction). -/
abbrev Cache := List (String × CacheEntry)

/-- `Map.prototype.get`. -/
def mapGet (c : Cache) (k : String) : Option CacheEntry :=
  match c with
  | [] => none
  | e :: rest => if e.1 = k then some e.2 else mapGet rest k

/-- `Map.prototype.set`: update in place if present, else append. -/
def mapSet (c : Cache) (k : String) (v : CacheEntry) : Cache :=
  match c with
  | [] => [(k, v)]
  | e :: rest => if e.1 = k then (k, v) :: rest else e :: mapSet rest k v

/-- `Map.prototype.delete` (a `Map` holds at most one entry per key). -/
def mapDelete (c : Cache) (k : String) : Cache :=
  match c with
  | [] => []
  | e :: rest => if e.1 = k then rest else e :: mapDelete rest k

/-- `const CACHE_TTL_MS = 24 * 60 * 60 * 1000`. -/
def CACHE_TTL_MS : Int := 24 * 60 * 60 * 1000

/-- `cacheGet(key)`: returns the live payload, lazily deleting an expired
entry.  Result: the returned value and the cache afterwards. -/
def cacheGet (now : Int) (c : Cache) (key : String) : Option Json × Cache :=
  match mapGet c key with
  | none => (none, c)
  | some e => if now > e.expiresAt then (none, mapDelete c key) else (some e.data, c)

/-- `cacheSet(key, data)`: store with expiry `Date.now() + CACHE_TTL_MS`. -/
def cacheSet (now : Int) (c : Cache) (key : String) (data : Json) : Cache :=
  mapSet c key ⟨data, now + CACHE_TTL_MS⟩

/- ### Startup configuration (`BASE_URL`, `API_TOKEN`) -/

/-- The default production endpoint. -/
def DEFAULT_BASE_URL : String := "https://api.letsdeel.com/rest/v2"

/-- The configured client: base URL and bearer token.  `deelRequest` takes a
`DeelClient`; one is only produced by a successful `startClient`, modelling
that no request is served without a configured token. -/
structure DeelClient where
  baseUrl : String
  token : String
deriving DecidableEq

/-- Module initialization of `client.ts`: `BASE_URL = env || default`, and
`if (!API_TOKEN) process.exit(1)` — an absent (or empty, hence falsy) token
makes the process exit with code 1 before anything is served. -/
def startClient (envBase envToken : Option String) : Except Nat DeelClient :=
  let base := match envBase with
    | some b => if b = "" then DEFAULT_BASE_URL else b
    | none => DEFAULT_BASE_URL
  match envToken with
  | none => Except.error 1
  | some t => if t = "" then Except.error 1 else Except.ok ⟨base, t⟩

/- ### URL construction -/

/-- A query parameter value: `string | number`. -/
inductive ParamV where
  | str (s : String)
  | num (n : Int)
deriving DecidableEq

/-- JS `String(value)` for a parameter value. -/
def ParamV.coerce : ParamV → String
  | .str s => s
  | .num n => toString n

/-- `URLSearchParams.set(k, v)`: replace the first match (dropping any other
matches), or append if the key is absent. -/
def setParam (q : List (String × String)) (k v : String) : List (String × String) :=
  match q with
  | [] => [(k, v)]
  | e :: rest =>
    if e.1 = k then (k, v) :: rest.filter (fun p => p.1 ≠ k)
    else e :: setParam rest k v

/-- The `for (const [key, value] of Object.entries(params))` loop: set every
defined entry, skip `undefined` ones. -/
def buildQuery (params : List (String × Option ParamV)) : List (String × String) :=
  params.foldl (fun q kv =>
    match kv.2 with
    | none => q
    | some v => setParam q kv.1 v.coerce) []

/-- Serialization of the search params back into the URL string. -/
def renderQuery (q : List (String × String)) : String :=
  match q with
  | [] => ""
  | _ => "?" ++ String.intercalate "&" (q.map (fun p => p.1 ++ "=" ++ p.2))

/-- `url.toString()` for `new URL(BASE_URL + path)` after the params loop. -/
def resolvedUrl (base path : String) (params : List (String × Option ParamV)) : String :=
  base ++ path ++ renderQuery (buildQuery params)

/- ### The rate limiter (sequential view, as used inside one request) -/

/-- `maxRequests = 5`. -/
def maxRequests : Nat := 5

/-- `windowMs = 1000`. -/
def windowMs : Int := 1000

/-- Mutable world state threaded through a `deelRequest` call: the clock, the
shared cache, and the rate limiter's timestamp list. -/
structure World where
  now : Int
  cache : Cache
  rl : List Int

/-- Observable effects of a call: number of `fetch` calls, the backoff delays
passed to `setTimeout` inside the retry loop, the delays slept inside
`waitForSlot`, and how many times `waitForSlot` was entered. -/
structure Log where
  fetches : Nat
  backoffSleeps : List Int
  rlSleeps : List Int
  rlAcquires : Nat
deriving DecidableEq

/-- The log of a pure cache hit: nothing happened. -/
def emptyLog : Log := ⟨0, [], [], 0⟩

/-- Advance the clock by a `setTimeout` delay (negative/NaN delays fire
immediately). -/
def sleepW (w : World) (d : Int) : World :=
  { w with now := w.now + max d 0 }

/-- `RateLimiter.waitForSlot()` run by a single (non-interleaved) caller:
prune timestamps older than the window, sleep past the oldest one if at the
cap, then push the (post-sleep) current time.  Returns the new world and the
list of delays slept. -/
def waitForSlot (w : World) : World × List Int :=
  let ts := w.rl.filter (fun t => w.now - t < windowMs)
  if maxRequests ≤ ts.length then
    let oldest := ts.headD 0
    let wait : Int := windowMs - (w.now - oldest) + 10
    let w1 := sleepW { w with rl := ts } wait
    ({ w1 with rl := ts ++ [w1.now] }, [wait])
  else
    ({ w with rl := ts ++ [w.now] }, [])

/- ### The HTTP fetch abstraction -/

/-- What `fetch` resolved to: status, the `Retry-After` header as
`headers.get` returns it, the body text, and the result of `JSON.parse` on
the body (`none` = the body is not valid JSON, so `response.json()` and
`JSON.parse(body)` throw). -/
structure HttpResponse where
  status : Nat
  retryAfter : Option String
  bodyText : String
  bodyJson : Option Json

/-- One attempt's `fetch` either rejects with a transport error message or
resolves to a response. -/
inductive FetchOutcome where
  | transportError (msg : String)
  | response (r : HttpResponse)

/-- The message of the `SyntaxError` thrown by `response.json()` on a body
that is not valid JSON. -/
def JSON_PARSE_ERROR_MSG : String := "Unexpected token in JSON"

/-- The hint appended to 403 error messages. -/
def SCOPE_HINT : String :=
  ". Check that your API token has the required read scope for this resource."

/-- The generic message when all attempts are used without a recorded error. -/
def EXHAUSTED_MSG : String := "Request failed after 3 attempts"

/-- The non-2xx branch: message built as
`"Deel API error <status>"`, enriched from the parsed body's
`message`/`errors` fields (or the raw body slice when the body does not
parse, or when `parsed` is `null` so that `parsed.message` throws), and
suffixed with the scope hint on a 403. -/
def buildApiErrorMessage (status : Nat) (bodyText : String) (bodyJson : Option Json) : String :=
  let base := "Deel API error " ++ toString status
  let withSlice := if bodyText = "" then base else base ++ ": " ++ bodyText.take 200
  let m :=
    match bodyJson with
    | none => withSlice
    | some Json.null => withSlice
    | some p =>
      let m1 := match jsGetField p "message" with
        | some v => if jsTruthy v then base ++ ": " ++ jsToString v else base
        | none => base
      match jsGetField p "errors" with
        | some v => if jsTruthy v then m1 ++ " - " ++ jsonStringify v else m1
        | none => m1
  if status = 403 then m ++ SCOPE_HINT else m

/-- The 429 branch's delay: `retryAfter ? parseInt(retryAfter, 10) * 1000 :
2000 * (attempt + 1)` — an empty header string is falsy, and a `NaN` parse
makes `setTimeout` fire with no delay. -/
def retryAfterWaitMs (ra : Option String) (attempt : Nat) : Int :=
  match ra with
  | some s =>
    if s = "" then 2000 * ((attempt : Int) + 1)
    else match jsParseInt s with
      | some n => n * 1000
      | none => 0
  | none => 2000 * ((attempt : Int) + 1)

/- ### The retry loop of `deelRequest` -/

/-- Outcome of one iteration of the `for (attempt …)` body: either the
function returns/throws (`done`), or the loop continues to the next attempt
with an updated `lastError` (`next`). -/
inductive StepOut where
  | done (r : Except String Json) (w : World) (log : Log)
  | next (lastErr : Option String) (w : World) (log : Log)

/-- The `catch` block: rethrow errors whose message starts with
`"Deel API error"`; otherwise record the error as `lastError` and, when
attempts remain (`attempt < 2`), sleep `1000 * (attempt + 1)` ms. -/
def caught (attempt : Nat) (w : World) (log : Log) (msg : String) : StepOut :=
  if jsStartsWith msg "Deel API error" then .done (.error msg) w log
  else if attempt < 2 then
    let waitMs : Int := 1000 * ((attempt : Int) + 1)
    .next (some msg) (sleepW w waitMs) { log with backoffSleeps := log.backoffSleeps ++ [waitMs] }
  else .next (some msg) w log

/-- The body of one attempt: fetch, then dispatch on 429 / ≥500 / other
non-ok / 2xx, with all thrown errors routed through `caught`. -/
def attemptStep (oracle : Nat → FetchOutcome) (url : String) (attempt : Nat)
    (lastErr : Option String) (w : World) (log : Log) : StepOut :=
  match oracle attempt with
  | .transportError msg => caught attempt w { log with fetches := log.fetches + 1 } msg
  | .response r =>
    let log1 := { log with fetches := log.fetches + 1 }
    if r.status = 429 then
      let waitMs := retryAfterWaitMs r.retryAfter attempt
      .next lastErr (sleepW w waitMs) { log1 with backoffSleeps := log1.backoffSleeps ++ [waitMs] }
    else if 500 ≤ r.status then
      let waitMs : Int := 1000 * ((attempt : Int) + 1)
      .next lastErr (sleepW w waitMs) { log1 with backoffSleeps := log1.backoffSleeps ++ [waitMs] }
    else if ¬ (200 ≤ r.status ∧ r.status ≤ 299) then
      caught attempt w log1 (buildApiErrorMessage r.status r.bodyText r.bodyJson)
    else
      match r.bodyJson with
      | none => caught attempt w log1 JSON_PARSE_ERROR_MSG
      | some v => .done (.ok v) { w with cache := cacheSet w.now w.cache url v } log1

/-- The `for (let attempt = 0; attempt < 3; attempt++)` loop, with the final
`throw lastError || new Error("Request failed after 3 attempts")`. -/
def requestLoop (oracle : Nat → FetchOutcome) (url : String) :
    Nat → Nat → Option String → World → Log → Except String Json × World × Log
  | 0, _, lastErr, w, log => (.error (lastErr.getD EXHAUSTED_MSG), w, log)
  | fuel + 1, attempt, lastErr, w, log =>
    match attemptStep oracle url attempt lastErr w log with
    | .done r w1 log1 => (r, w1, log1)
    | .next le1 w1 log1 => requestLoop oracle url fuel (attempt + 1) le1 w1 log1

/-- `deelRequest(path, params)`: build the URL, consult the cache (returning
immediately on a live hit), otherwise acquire a rate-limiter slot and run the
3-attempt retry loop.  Returns the result, the final world, and the log of
observable effects. -/
def deelRequest (client : DeelClient) (oracle : Nat → FetchOutcome)
    (path : String) (params : List (String × Option ParamV)) (w : World) :
    Except String Json × World × Log :=
  let url := resolvedUrl client.baseUrl path params
  let gc := cacheGet w.now w.cache url
  match gc.1 with
  | some v => (.ok v, { w with cache := gc.2 }, emptyLog)
  | none =>
    let w1 := { w with cache := gc.2 }
    let ws := waitForSlot w1
    requestLoop oracle url 3 0 none ws.1 ⟨0, [], ws.2, 1⟩

/-- `deelRequestRaw(path, params)`: `const res = await deelRequest(path,
params); return res;`. -/
def deelRequestRaw (client : DeelClient) (oracle : Nat → FetchOutcome)
    (path : String) (params : List (String × Option ParamV)) (w : World) :
    Except String Json × World × Log :=
  deelRequest client oracle path params w

/- ### The rate limiter under concurrent (interleaved) callers

`waitForSlot` is `async`: between the capacity check and the final
`this.timestamps.push(Date.now())` the caller suspends in `setTimeout`,
during which other logical callers run their own checks.  The small-step
model below makes the interleaving explicit: an `arrive` event runs the
synchronous part (prune, check, either push-and-complete or start sleeping),
and a `wake` event is a `setTimeout` callback firing: the caller pushes the
current time and completes, with no re-check. -/

/-- Shared state plus bookkeeping of the interleaved executions of
`waitForSlot`: the shared timestamp list, the sleeping callers with their
wake deadlines, and each completed caller with its completion time. -/
structure RLSim where
  timestamps : List Int
  pending : List (Nat × Int)
  completions : List (Nat × Int)

/-- An event of the interleaved execution: a caller entering
`waitForSlot` at time `t`, or a sleeping caller's timeout firing at `t`. -/
inductive RLEvent where
  | arrive (id : Nat) (t : Int)
  | wake (id : Nat) (t : Int)

/-- The time at which an event occurs. -/
def RLEvent.time : RLEvent → Int
  | .arrive _ t => t
  | .wake _ t => t

/-- One event of `waitForSlot` under interleaving (the code of lines 38–49
of `client.ts`, split at its `await`). -/
def rlStep (s : RLSim) : RLEvent → RLSim
  | .arrive id t =>
    let ts := s.timestamps.filter (fun x => t - x < windowMs)
    if maxRequests ≤ ts.length then
      let oldest := ts.headD 0
      let wait := windowMs - (t - oldest) + 10
      { s with timestamps := ts, pending := s.pending ++ [(id, t + max wait 0)] }
    else
      { s with timestamps := ts ++ [t], completions := s.completions ++ [(id, t)] }
  | .wake id t =>
    { s with timestamps := s.timestamps ++ [t],
             pending := s.pending.filter (fun p => p.1 ≠ id),
             completions := s.completions ++ [(id, t)] }

/-- Run a sequence of events. -/
def rlRun (s : RLSim) : List RLEvent → RLSim
  | [] => s
  | e :: rest => rlRun (rlStep s e) rest

/-- The empty rate limiter (the module-level shared instance at startup). -/
def rlInit : RLSim := ⟨[], [], []⟩

/-- Realizability of an event list from state `s` at time `cur`: times are
nondecreasing, no event may be scheduled past a still-pending timeout (the
timeout would have fired first), a caller arrives at most once, and a wake
is exactly a pending timeout firing at its deadline. -/
def rlValid (cur : Int) (s : RLSim) : List RLEvent → Bool
  | [] => s.pending.isEmpty
  | e :: rest =>
    (cur ≤ e.time) &&
    (s.pending.all (fun p => e.time ≤ p.2)) &&
    (match e with
     | .arrive id _ =>
       (s.pending.all (fun p => p.1 ≠ id)) && (s.completions.all (fun c => c.1 ≠ id))
     | .wake id t => (s.pending.contains (id, t))) &&
    rlValid e.time (rlStep s e) rest

/-- Completions falling in the trailing window `(T, T + windowMs]`. -/
def completionsInWindow (comps : List (Nat × Int)) (T : Int) : Nat :=
  (comps.filter (fun c => T < c.2 && c.2 ≤ T + windowMs)).length

/-- Eleven logical callers all entering `waitForSlot` at time 0, every
timeout then firing at its deadline (t = 1010). -/
def rlBugEvents : List RLEvent :=
  [RLEvent.arrive 1 0, RLEvent.arrive 2 0, RLEvent.arrive 3 0,
   RLEvent.arrive 4 0, RLEvent.arrive 5 0, RLEvent.arrive 6 0,
   RLEvent.arrive 7 0, RLEvent.arrive 8 0, RLEvent.arrive 9 0,
   RLEvent.arrive 10 0, RLEvent.arrive 11 0,
   RLEvent.wake 6 1010, RLEvent.wake 7 1010, RLEvent.wake 8 1010,
   RLEvent.wake 9 1010, RLEvent.wake 10 1010, RLEvent.wake 11 1010]

/- ### Basic cache-map lemmas -/

theorem mapGet_mapSet_self (c : Cache) (k : String) (v : CacheEntry) :
    mapGet (mapSet c k v) k = some v := by
  induction c with
  | nil => simp [mapSet, mapGet]
  | cons e rest ih =>
    by_cases h : e.1 = k
    · simp [mapSet, h, mapGet]
    · simp [mapSet, h, mapGet, ih]

theorem cacheGet_miss_of_mapGet_none {now : Int} {c : Cache} {key : String}
    (h : mapGet c key = none) : cacheGet now c key = (none, c) := by
  simp [cacheGet, h]

theorem cacheGet_hit {now : Int} {c : Cache} {key : String} {e : CacheEntry}
    (h : mapGet c key = some e) (hl : ¬ now > e.expiresAt) :
    cacheGet now c key = (some e.data, c) := by
  simp [cacheGet, h, hl]

theorem cacheGet_expired {now : Int} {c : Cache} {key : String} {e : CacheEntry}
    (h : mapGet c key = some e) (hl : now > e.expiresAt) :
    cacheGet now c key = (none, mapDelete c key) := by
  simp [cacheGet, h, hl]

/-- C1: the spec demands that no more than `maxRequests` (= 5) `waitForSlot`
calls complete within any trailing `windowMs` (= 1000 ms) interval, for
every sequence of calls on the shared limiter.  The code violates this: a
sleeping caller pushes its timestamp on wake without re-checking the cap, so
in the realizable interleaving `rlBugEvents` (eleven callers entering
`waitForSlot` at time 0, each timeout firing at its deadline 1010), six
callers complete inside the single trailing window `(10, 1010]`. -/
theorem rateLimiter_concurrent_cap_violated :
    rlValid 0 rlInit rlBugEvents = true ∧
    maxRequests < completionsInWindow (rlRun rlInit rlBugEvents).completions 10 := by
  exact ⟨by decide, by decide⟩

/-- C9: `deelRequestRaw(path, params)` simply awaits `deelRequest(path,
params)` and returns its result, so the two entry points agree on every
input, state, and upstream behavior, succeeding and failing identically. -/
theorem deelRequestRaw_eq_deelRequest (client : DeelClient) (oracle : Nat → FetchOutcome)
    (path : String) (params : List (String × Option ParamV)) (w : World) :
    deelRequestRaw client oracle path params w = deelRequest client oracle path params w := rfl

/-- C8: an absent bearer token is fatal at startup — `startClient` exits
with code 1 (so the process serves nothing), and any successfully started
client carries a non-empty token taken from the environment; `deelRequest`
requires such a client, so no request is ever served without one. -/
theorem startClient_requires_token :
    (∀ eb, startClient eb none = Except.error 1) ∧
    (∀ eb t c, startClient eb (some t) = Except.ok c → t ≠ "" ∧ c.token = t) := by
  constructor
  · intro eb; rfl
  · intro eb t c h
    by_cases ht : t = ""
    · subst ht; simp [startClient] at h
    · cases eb with
      | none =>
        simp [startClient, ht] at h
        exact ⟨ht, by rw [← h]⟩
      | some b =>
        by_cases hb : b = "" <;>
          · simp [startClient, ht, hb] at h
            exact ⟨ht, by rw [← h]⟩

/-- Witness for C8 at concrete inputs. -/
theorem startClient_requires_token_witness :
    startClient none none = Except.error 1 ∧
    ("tok" ≠ "" ∧ (DeelClient.mk DEFAULT_BASE_URL "tok").token = "tok") :=
  ⟨startClient_requires_token.1 none,
   startClient_requires_token.2 none "tok" ⟨DEFAULT_BASE_URL, "tok"⟩ rfl⟩

/- ### Structural lemmas about the retry loop -/

theorem attemptStep_next_cache {o : Nat → FetchOutcome} {url : String} {a : Nat}
    {le le1 : Option String} {w w1 : World} {log log1 : Log}
    (h : attemptStep o url a le w log = .next le1 w1 log1) : w1.cache = w.cache := by
  unfold attemptStep caught at h
  repeat' split at h
  all_goals first | (cases h; rfl) | cases h

theorem attemptStep_done_error_cache {o : Nat → FetchOutcome} {url : String} {a : Nat}
    {le : Option String} {w w1 : World} {log log1 : Log} {e : String}
    (h : attemptStep o url a le w log = .done (.error e) w1 log1) : w1.cache = w.cache := by
  unfold attemptStep caught at h
  repeat' split at h
  all_goals first | (cases h; rfl) | cases h

theorem attemptStep_done_ok {o : Nat → FetchOutcome} {url : String} {a : Nat}
    {le : Option String} {w w1 : World} {log log1 : Log} {v : Json}
    (h : attemptStep o url a le w log = .done (.ok v) w1 log1) :
    w1.cache = cacheSet w.now w.cache url v ∧ w1.now = w.now := by
  unfold attemptStep caught at h
  repeat' split at h
  all_goals first | (cases h; exact ⟨rfl, rfl⟩) | cases h

theorem requestLoop_error_cache {o : Nat → FetchOutcome} {url : String} :
    ∀ (fuel a : Nat) (le : Option String) (w : World) (log : Log) (e : String),
    (requestLoop o url fuel a le w log).1 = .error e →
    (requestLoop o url fuel a le w log).2.1.cache = w.cache := by
  intro fuel
  induction fuel with
  | zero => intro a le w log e _; rfl
  | succ n ih =>
    intro a le w log e h
    unfold requestLoop at h ⊢
    generalize hs : attemptStep o url a le w log = st at h ⊢
    cases st with
    | done r w1 log1 =>
      dsimp only at h ⊢
      cases r with
      | ok v => cases h
      | error e1 => exact attemptStep_done_error_cache hs
    | next le1 w1 log1 =>
      dsimp only at h ⊢
      rw [ih (a + 1) le1 w1 log1 e h]
      exact attemptStep_next_cache hs

theorem requestLoop_ok_entry {o : Nat → FetchOutcome} {url : String} :
    ∀ (fuel a : Nat) (le : Option String) (w : World) (log : Log) (v : Json),
    (requestLoop o url fuel a le w log).1 = .ok v →
    mapGet (requestLoop o url fuel a le w log).2.1.cache url =
      some ⟨v, (requestLoop o url fuel a le w log).2.1.now + CACHE_TTL_MS⟩ := by
  intro fuel
  induction fuel with
  | zero => intro a le w log v h; cases h
  | succ n ih =>
    intro a le w log v h
    unfold requestLoop at h ⊢
    generalize hs : attemptStep o url a le w log = st at h ⊢
    cases st with
    | done r w1 log1 =>
      dsimp only at h ⊢
      cases r with
      | ok v' =>
        cases h
        obtain ⟨hc, hn⟩ := attemptStep_done_ok hs
        simp only [hc, hn, cacheSet, mapGet_mapSet_self]
      | error e1 => cases h
    | next le1 w1 log1 =>
      dsimp only at h ⊢
      exact ih (a + 1) le1 w1 log1 v h

/- ### Error-message structure lemmas -/

theorem strContains_of_eq {h a n b : String} (he : h = a ++ n ++ b) : strContains h n := by
  subst he
  unfold strContains
  rw [String.data_append, String.data_append]
  exact List.infix_append _ _ _

theorem strContains_refl (n : String) : strContains n n :=
  ⟨[], [], by simp⟩

theorem strContains_append_right {h : String} (n b : String) (hc : strContains h n) :
    strContains (h ++ b) n := by
  unfold strContains at hc ⊢
  rw [String.data_append]
  exact hc.trans ⟨[], b.data, by simp⟩

theorem strContains_append_left (a : String) {h n : String} (hc : strContains h n) :
    strContains (a ++ h) n := by
  unfold strContains at hc ⊢
  rw [String.data_append]
  exact hc.trans ⟨a.data, [], by simp⟩

theorem buildApiErrorMessage_shape (status : Nat) (bodyText : String) (bodyJson : Option Json) :
    ∃ t, buildApiErrorMessage status bodyText bodyJson =
      "Deel API error " ++ toString status ++ t := by
  unfold buildApiErrorMessage
  repeat' split
  all_goals simp only [String.append_assoc]
  all_goals first
    | exact ⟨_, rfl⟩
    | exact ⟨"", by rw [String.append_empty]⟩

theorem buildApiErrorMessage_startsWith (status : Nat) (bodyText : String)
    (bodyJson : Option Json) :
    jsStartsWith (buildApiErrorMessage status bodyText bodyJson) "Deel API error" = true := by
  obtain ⟨t, ht⟩ := buildApiErrorMessage_shape status bodyText bodyJson
  have hsp : ("Deel API error " : String) = "Deel API error" ++ " " := by decide
  rw [ht, hsp, String.append_assoc, String.append_assoc]
  unfold jsStartsWith
  rw [String.data_append, List.isPrefixOf_iff_prefix]
  exact List.prefix_append _ _

theorem buildApiErrorMessage_contains_status (status : Nat) (bodyText : String)
    (bodyJson : Option Json) :
    strContains (buildApiErrorMessage status bodyText bodyJson) (toString status) := by
  obtain ⟨t, ht⟩ := buildApiErrorMessage_shape status bodyText bodyJson
  exact strContains_of_eq ht

theorem buildApiErrorMessage_403_hint (bodyText : String) (bodyJson : Option Json) :
    strContains (buildApiErrorMessage 403 bodyText bodyJson) SCOPE_HINT := by
  simp only [buildApiErrorMessage, if_true]
  exact strContains_of_eq (String.append_empty _).symm

theorem buildApiErrorMessage_contains_message (status : Nat) (bodyText : String)
    (p mv : Json) (hm : jsGetField p "message" = some mv) (htr : jsTruthy mv = true) :
    strContains (buildApiErrorMessage status bodyText (some p)) (jsToString mv) := by
  cases p with
  | null => simp [jsGetField] at hm
  | bool b => simp [jsGetField] at hm
  | num n => simp [jsGetField] at hm
  | str s => simp [jsGetField] at hm
  | arr xs => simp [jsGetField] at hm
  | obj fs =>
    simp only [buildApiErrorMessage, hm, htr, eq_self_iff_true, if_true]
    cases he : jsGetField (Json.obj fs) "errors" with
    | none =>
      simp only [he]
      split_ifs
      all_goals
        repeat first
          | exact strContains_append_left _ (strContains_refl _)
          | apply strContains_append_right
    | some v =>
      simp only [he]
      split_ifs
      all_goals
        repeat first
          | exact strContains_append_left _ (strContains_refl _)
          | apply strContains_append_right

/- ### Characterization of the attempt body by response kind -/

theorem attemptStep_429 {o : Nat → FetchOutcome} {url : String} {a : Nat}
    {le : Option String} {w : World} {log : Log} {r : HttpResponse}
    (ho : o a = .response r) (hs : r.status = 429) :
    attemptStep o url a le w log = .next le (sleepW w (retryAfterWaitMs r.retryAfter a))
      { log with fetches := log.fetches + 1,
                 backoffSleeps := log.backoffSleeps ++ [retryAfterWaitMs r.retryAfter a] } := by
  simp only [attemptStep, ho]
  rw [if_pos hs]

theorem attemptStep_500 {o : Nat → FetchOutcome} {url : String} {a : Nat}
    {le : Option String} {w : World} {log : Log} {r : HttpResponse}
    (ho : o a = .response r) (h4 : ¬ r.status = 429) (h5 : 500 ≤ r.status) :
    attemptStep o url a le w log = .next le (sleepW w (1000 * ((a : Int) + 1)))
      { log with fetches := log.fetches + 1,
                 backoffSleeps := log.backoffSleeps ++ [1000 * ((a : Int) + 1)] } := by
  simp only [attemptStep, ho]
  rw [if_neg h4, if_pos h5]

theorem attemptStep_client_error {o : Nat → FetchOutcome} {url : String} {a : Nat}
    {le : Option String} {w : World} {log : Log} {r : HttpResponse}
    (ho : o a = .response r) (h4 : ¬ r.status = 429) (h5 : ¬ 500 ≤ r.status)
    (hok : ¬ (200 ≤ r.status ∧ r.status ≤ 299)) :
    attemptStep o url a le w log =
      .done (.error (buildApiErrorMessage r.status r.bodyText r.bodyJson)) w
        { log with fetches := log.fetches + 1 } := by
  simp only [attemptStep, ho]
  rw [if_neg h4, if_neg h5, if_pos hok]
  unfold caught
  rw [if_pos (buildApiErrorMessage_startsWith _ _ _)]

theorem attemptStep_2xx_badJson {o : Nat → FetchOutcome} {url : String} {a : Nat}
    {le : Option String} {w : World} {log : Log} {r : HttpResponse}
    (ho : o a = .response r) (h4 : ¬ r.status = 429) (h5 : ¬ 500 ≤ r.status)
    (hok : 200 ≤ r.status ∧ r.status ≤ 299) (hb : r.bodyJson = none) :
    attemptStep o url a le w log =
      if a < 2 then
        .next (some JSON_PARSE_ERROR_MSG) (sleepW w (1000 * ((a : Int) + 1)))
          { log with fetches := log.fetches + 1,
                     backoffSleeps := log.backoffSleeps ++ [1000 * ((a : Int) + 1)] }
      else .next (some JSON_PARSE_ERROR_MSG) w { log with fetches := log.fetches + 1 } := by
  simp only [attemptStep, ho, hb]
  rw [if_neg h4, if_neg h5, if_neg (not_not_intro hok)]
  unfold caught
  rw [if_neg (by decide : ¬ (jsStartsWith JSON_PARSE_ERROR_MSG "Deel API error" = true))]

theorem attemptStep_2xx_ok {o : Nat → FetchOutcome} {url : String} {a : Nat}
    {le : Option String} {w : World} {log : Log} {r : HttpResponse} {v : Json}
    (ho : o a = .response r) (h4 : ¬ r.status = 429) (h5 : ¬ 500 ≤ r.status)
    (hok : 200 ≤ r.status ∧ r.status ≤ 299) (hb : r.bodyJson = some v) :
    attemptStep o url a le w log =
      .done (.ok v) { w with cache := cacheSet w.now w.cache url v }
        { log with fetches := log.fetches + 1 } := by
  simp only [attemptStep, ho, hb]
  rw [if_neg h4, if_neg h5, if_neg (not_not_intro hok)]

theorem attemptStep_transport {o : Nat → FetchOutcome} {url : String} {a : Nat}
    {le : Option String} {w : World} {log : Log} {msg : String}
    (ho : o a = .transportError msg) (hpre : jsStartsWith msg "Deel API error" = false) :
    attemptStep o url a le w log =
      if a < 2 then
        .next (some msg) (sleepW w (1000 * ((a : Int) + 1)))
          { log with fetches := log.fetches + 1,
                     backoffSleeps := log.backoffSleeps ++ [1000 * ((a : Int) + 1)] }
      else .next (some msg) w { log with fetches := log.fetches + 1 } := by
  simp only [attemptStep, ho]
  unfold caught
  rw [if_neg (by simp [hpre] : ¬ (jsStartsWith msg "Deel API error" = true))]

theorem deelRequest_mapGet_none {client : DeelClient} {o : Nat → FetchOutcome}
    {path : String} {params : List (String × Option ParamV)} {w : World}
    (h : mapGet w.cache (resolvedUrl client.baseUrl path params) = none) :
    deelRequest client o path params w =
      requestLoop o (resolvedUrl client.baseUrl path params) 3 0 none (waitForSlot w).1
        ⟨0, [], (waitForSlot w).2, 1⟩ := by
  simp only [deelRequest, cacheGet_miss_of_mapGet_none h]

/-- C7: given an upstream answering with status ≥ 500 on all 3 attempts,
`deelRequest` sleeps `1000 * (attempt + 1)` ms after each attempt
([1000, 2000, 3000]), performs exactly 3 fetches, and then fails with the
configured exhaustion message (the ≥500 branch records no `lastError`, so
the final throw falls back to "Request failed after 3 attempts"). -/
theorem server_error_500_exhausts_attempts {client : DeelClient} {o : Nat → FetchOutcome}
    {path : String} {params : List (String × Option ParamV)} {w : World}
    {r0 r1 r2 : HttpResponse}
    (hmiss : mapGet w.cache (resolvedUrl client.baseUrl path params) = none)
    (h0 : o 0 = .response r0) (h1 : o 1 = .response r1) (h2 : o 2 = .response r2)
    (hs0 : 500 ≤ r0.status) (hs1 : 500 ≤ r1.status) (hs2 : 500 ≤ r2.status) :
    (deelRequest client o path params w).1 = .error EXHAUSTED_MSG ∧
    (deelRequest client o path params w).2.2.fetches = 3 ∧
    (deelRequest client o path params w).2.2.backoffSleeps = [1000, 2000, 3000] := by
  rw [deelRequest_mapGet_none hmiss]
  unfold requestLoop
  rw [attemptStep_500 h0 (by omega) hs0]
  dsimp only
  unfold requestLoop
  rw [attemptStep_500 h1 (by omega) hs1]
  dsimp only
  unfold requestLoop
  rw [attemptStep_500 h2 (by omega) hs2]
  dsimp only
  unfold requestLoop
  norm_num

/-- Witness for C7: an upstream that is 500 on every attempt. -/
theorem server_error_500_exhausts_attempts_witness :
    (deelRequest ⟨DEFAULT_BASE_URL, "t"⟩ (fun _ => .response ⟨500, none, "", none⟩)
        "/x" [] ⟨0, [], []⟩).1 = .error EXHAUSTED_MSG ∧
    (deelRequest ⟨DEFAULT_BASE_URL, "t"⟩ (fun _ => .response ⟨500, none, "", none⟩)
        "/x" [] ⟨0, [], []⟩).2.2.fetches = 3 ∧
    (deelRequest ⟨DEFAULT_BASE_URL, "t"⟩ (fun _ => .response ⟨500, none, "", none⟩)
        "/x" [] ⟨0, [], []⟩).2.2.backoffSleeps = [1000, 2000, 3000] :=
  server_error_500_exhausts_attempts rfl rfl rfl rfl (by decide) (by decide) (by decide)

/-- C5: a 429 response never fails the call: the attempt sleeps the
`Retry-After` header converted seconds → ms when present (else
`2000 * (attempt + 1)` ms) and continues, consuming one of the 3 attempts.
With an upstream answering 429 (no header), 429 (header `s` parsing to `n`),
then 2xx with payload `v`, the call succeeds with `v` after exactly the two
backoff sleeps [2000, n * 1000] and exactly 3 fetches. -/
theorem rate_limited_429_retries {client : DeelClient} {o : Nat → FetchOutcome}
    {path : String} {params : List (String × Option ParamV)} {w : World}
    {r0 r1 r2 : HttpResponse} {v : Json} {s : String} {n : Int}
    (hmiss : mapGet w.cache (resolvedUrl client.baseUrl path params) = none)
    (h0 : o 0 = .response r0) (hs0 : r0.status = 429) (hra0 : r0.retryAfter = none)
    (h1 : o 1 = .response r1) (hs1 : r1.status = 429) (hra1 : r1.retryAfter = some s)
    (hsne : s ≠ "") (hpn : jsParseInt s = some n)
    (h2 : o 2 = .response r2) (hok2 : 200 ≤ r2.status ∧ r2.status ≤ 299)
    (hb2 : r2.bodyJson = some v) :
    (deelRequest client o path params w).1 = .ok v ∧
    (deelRequest client o path params w).2.2.fetches = 3 ∧
    (deelRequest client o path params w).2.2.backoffSleeps = [2000, n * 1000] := by
  rw [deelRequest_mapGet_none hmiss]
  unfold requestLoop
  rw [attemptStep_429 h0 hs0]
  dsimp only
  unfold requestLoop
  rw [attemptStep_429 h1 hs1]
  dsimp only
  unfold requestLoop
  rw [attemptStep_2xx_ok h2 (by omega) (by omega) hok2 hb2]
  dsimp only
  simp [retryAfterWaitMs, hra0, hra1, hsne, hpn]

/-- Witness for C5: 429, then 429 with Retry-After "3", then 200. -/
theorem rate_limited_429_retries_witness :
    (deelRequest ⟨DEFAULT_BASE_URL, "t"⟩
        (fun i => if i = 0 then .response ⟨429, none, "", none⟩
          else if i = 1 then .response ⟨429, some "3", "", none⟩
          else .response ⟨200, none, "", some (Json.obj [("data", Json.arr [])])⟩)
        "/x" [] ⟨0, [], []⟩).1 = .ok (Json.obj [("data", Json.arr [])]) ∧
    (deelRequest ⟨DEFAULT_BASE_URL, "t"⟩
        (fun i => if i = 0 then .response ⟨429, none, "", none⟩
          else if i = 1 then .response ⟨429, some "3", "", none⟩
          else .response ⟨200, none, "", some (Json.obj [("data", Json.arr [])])⟩)
        "/x" [] ⟨0, [], []⟩).2.2.fetches = 3 ∧
    (deelRequest ⟨DEFAULT_BASE_URL, "t"⟩
        (fun i => if i = 0 then .response ⟨429, none, "", none⟩
          else if i = 1 then .response ⟨429, some "3", "", none⟩
          else .response ⟨200, none, "", some (Json.obj [("data", Json.arr [])])⟩)
        "/x" [] ⟨0, [], []⟩).2.2.backoffSleeps = [2000, 3 * 1000] :=
  rate_limited_429_retries rfl rfl rfl rfl rfl rfl rfl
    (by decide) (by decide) rfl (by decide) rfl

/-- C6: a non-2xx response other than 429 and below 500 fails immediately —
one fetch, no backoff sleep — with the classified message built from the
status code, enriched with a truthy `message` field parsed from the JSON
body, and suffixed with the token-scope hint when the status is 403. -/
theorem client_error_fails_immediately {client : DeelClient} {o : Nat → FetchOutcome}
    {path : String} {params : List (String × Option ParamV)} {w : World} {r : HttpResponse}
    (hmiss : mapGet w.cache (resolvedUrl client.baseUrl path params) = none)
    (h0 : o 0 = .response r) (h4 : ¬ r.status = 429) (h5 : ¬ 500 ≤ r.status)
    (hok : ¬ (200 ≤ r.status ∧ r.status ≤ 299)) :
    (deelRequest client o path params w).1 =
      .error (buildApiErrorMessage r.status r.bodyText r.bodyJson) ∧
    (deelRequest client o path params w).2.2.fetches = 1 ∧
    (deelRequest client o path params w).2.2.backoffSleeps = [] ∧
    strContains (buildApiErrorMessage r.status r.bodyText r.bodyJson) (toString r.status) ∧
    (r.status = 403 →
      strContains (buildApiErrorMessage r.status r.bodyText r.bodyJson) SCOPE_HINT) ∧
    (∀ p mv, r.bodyJson = some p → jsGetField p "message" = some mv → jsTruthy mv = true →
      strContains (buildApiErrorMessage r.status r.bodyText r.bodyJson) (jsToString mv)) := by
  have hred : deelRequest client o path params w =
      (.error (buildApiErrorMessage r.status r.bodyText r.bodyJson), (waitForSlot w).1,
        ⟨1, [], (waitForSlot w).2, 1⟩) := by
    rw [deelRequest_mapGet_none hmiss]
    unfold requestLoop
    rw [attemptStep_client_error h0 h4 h5 hok]
  refine ⟨by rw [hred], by rw [hred], by rw [hred],
    buildApiErrorMessage_contains_status _ _ _, ?_, ?_⟩
  · intro h403
    rw [h403]
    exact buildApiErrorMessage_403_hint _ _
  · intro p mv hbj hm htr
    rw [hbj]
    exact buildApiErrorMessage_contains_message _ _ _ _ hm htr

/-- Witness for C6: a 403 whose body is the JSON object
with message "insufficient scope". -/
theorem client_error_fails_immediately_witness :
    (deelRequest ⟨DEFAULT_BASE_URL, "t"⟩
        (fun _ => .response ⟨403, none, "x", some (Json.obj [("message", Json.str "insufficient scope")])⟩)
        "/x" [] ⟨0, [], []⟩).1 =
      .error (buildApiErrorMessage 403 "x" (some (Json.obj [("message", Json.str "insufficient scope")]))) ∧
    (deelRequest ⟨DEFAULT_BASE_URL, "t"⟩
        (fun _ => .response ⟨403, none, "x", some (Json.obj [("message", Json.str "insufficient scope")])⟩)
        "/x" [] ⟨0, [], []⟩).2.2.fetches = 1 ∧
    (deelRequest ⟨DEFAULT_BASE_URL, "t"⟩
        (fun _ => .response ⟨403, none, "x", some (Json.obj [("message", Json.str "insufficient scope")])⟩)
        "/x" [] ⟨0, [], []⟩).2.2.backoffSleeps = [] ∧
    strContains (buildApiErrorMessage 403 "x" (some (Json.obj [("message", Json.str "insufficient scope")])))
      (toString 403) ∧
    ((403 : Nat) = 403 →
      strContains (buildApiErrorMessage 403 "x" (some (Json.obj [("message", Json.str "insufficient scope")])))
        SCOPE_HINT) ∧
    (∀ p mv,
      (some (Json.obj [("message", Json.str "insufficient scope")]) : Option Json) = some p →
      jsGetField p "message" = some mv → jsTruthy mv = true →
      strContains (buildApiErrorMessage 403 "x" (some (Json.obj [("message", Json.str "insufficient scope")])))
        (jsToString mv)) :=
  @client_error_fails_immediately ⟨DEFAULT_BASE_URL, "t"⟩
    (fun _ => .response ⟨403, none, "x", some (Json.obj [("message", Json.str "insufficient scope")])⟩)
    "/x" [] ⟨0, [], []⟩ ⟨403, none, "x", some (Json.obj [("message", Json.str "insufficient scope")])⟩
    rfl rfl (by decide) (by decide) (by decide)

/-- C2 counterexample: an upstream that is 2xx with a body that is not valid
JSON on every attempt.  The claim says the decode failure surfaces
immediately with no further attempts; the code instead catches the
`SyntaxError` in its generic handler and retries: 3 fetches and two backoff
sleeps happen before the decode error finally surfaces. -/
theorem decodeError_is_retried_cex :
    (deelRequest ⟨DEFAULT_BASE_URL, "t"⟩ (fun _ => .response ⟨200, none, "oops", none⟩)
        "/x" [] ⟨0, [], []⟩).2.2.fetches = 3 ∧
    (deelRequest ⟨DEFAULT_BASE_URL, "t"⟩ (fun _ => .response ⟨200, none, "oops", none⟩)
        "/x" [] ⟨0, [], []⟩).2.2.backoffSleeps = [1000, 2000] ∧
    (deelRequest ⟨DEFAULT_BASE_URL, "t"⟩ (fun _ => .response ⟨200, none, "oops", none⟩)
        "/x" [] ⟨0, [], []⟩).1 = .error JSON_PARSE_ERROR_MSG :=
  ⟨rfl, rfl, rfl⟩

/-- C2 (amended): a 2xx response whose body is not valid JSON is treated
like a transport failure, not surfaced immediately: it is recorded as the
last error and retried with `1000 * (attempt + 1)` ms backoff; when every
attempt is such a response, `deelRequest` fails with the decode error after
3 fetches and backoff sleeps [1000, 2000]. -/
theorem decodeError_retried_amended {client : DeelClient} {o : Nat → FetchOutcome}
    {path : String} {params : List (String × Option ParamV)} {w : World}
    {r0 r1 r2 : HttpResponse}
    (hmiss : mapGet w.cache (resolvedUrl client.baseUrl path params) = none)
    (h0 : o 0 = .response r0) (hok0 : 200 ≤ r0.status ∧ r0.status ≤ 299)
    (hb0 : r0.bodyJson = none)
    (h1 : o 1 = .response r1) (hok1 : 200 ≤ r1.status ∧ r1.status ≤ 299)
    (hb1 : r1.bodyJson = none)
    (h2 : o 2 = .response r2) (hok2 : 200 ≤ r2.status ∧ r2.status ≤ 299)
    (hb2 : r2.bodyJson = none) :
    (deelRequest client o path params w).1 = .error JSON_PARSE_ERROR_MSG ∧
    (deelRequest client o path params w).2.2.fetches = 3 ∧
    (deelRequest client o path params w).2.2.backoffSleeps = [1000, 2000] := by
  rw [deelRequest_mapGet_none hmiss]
  unfold requestLoop
  rw [attemptStep_2xx_badJson h0 (by omega) (by omega) hok0 hb0]
  rw [if_pos (by omega : (0 : Nat) < 2)]
  dsimp only
  unfold requestLoop
  rw [attemptStep_2xx_badJson h1 (by omega) (by omega) hok1 hb1]
  rw [if_pos (by omega : (1 : Nat) < 2)]
  dsimp only
  unfold requestLoop
  rw [attemptStep_2xx_badJson h2 (by omega) (by omega) hok2 hb2]
  rw [if_neg (by omega : ¬ (2 : Nat) < 2)]
  dsimp only
  unfold requestLoop
  norm_num

/-- Witness for the amended C2. -/
theorem decodeError_retried_amended_witness :
    (deelRequest ⟨DEFAULT_BASE_URL, "t"⟩ (fun _ => .response ⟨204, none, "", none⟩)
        "/y" [] ⟨5, [], []⟩).1 = .error JSON_PARSE_ERROR_MSG ∧
    (deelRequest ⟨DEFAULT_BASE_URL, "t"⟩ (fun _ => .response ⟨204, none, "", none⟩)
        "/y" [] ⟨5, [], []⟩).2.2.fetches = 3 ∧
    (deelRequest ⟨DEFAULT_BASE_URL, "t"⟩ (fun _ => .response ⟨204, none, "", none⟩)
        "/y" [] ⟨5, [], []⟩).2.2.backoffSleeps = [1000, 2000] :=
  decodeError_retried_amended rfl rfl (by decide) rfl rfl (by decide) rfl rfl (by decide) rfl

theorem waitForSlot_cache (w : World) : (waitForSlot w).1.cache = w.cache := by
  simp only [waitForSlot]
  split <;> rfl

/-- The world as seen at a later clock reading (same cache, same rate
limiter state). -/
abbrev withNow (w : World) (t : Int) : World := { w with now := t }

theorem deelRequest_expired {client : DeelClient} {o : Nat → FetchOutcome}
    {path : String} {params : List (String × Option ParamV)} {w : World} {ent : CacheEntry}
    (hg : mapGet w.cache (resolvedUrl client.baseUrl path params) = some ent)
    (hex : w.now > ent.expiresAt) :
    deelRequest client o path params w =
      requestLoop o (resolvedUrl client.baseUrl path params) 3 0 none
        (waitForSlot { w with cache := mapDelete w.cache (resolvedUrl client.baseUrl path params) }).1
        ⟨0, [],
          (waitForSlot { w with cache := mapDelete w.cache (resolvedUrl client.baseUrl path params) }).2,
          1⟩ := by
  simp only [deelRequest, cacheGet_expired hg hex]

theorem deelRequest_hit {client : DeelClient} {o : Nat → FetchOutcome}
    {path : String} {params : List (String × Option ParamV)} {w : World} {ent : CacheEntry}
    (hg : mapGet w.cache (resolvedUrl client.baseUrl path params) = some ent)
    (hex : ¬ w.now > ent.expiresAt) :
    deelRequest client o path params w = (.ok ent.data, w, emptyLog) := by
  simp only [deelRequest, cacheGet_hit hg hex]

/-- C3: when the first call succeeds with payload `v`, the cache holds an
entry for the resolved URL whose payload is `v`; and any later call for the
same path and params made while that entry is unexpired returns exactly
`(.ok v)` with the world unchanged and the empty effect log — no fetch, no
backoff sleep, no rate-limiter interaction — regardless of the upstream
oracle the second call would have seen. -/
theorem cache_hit_within_ttl {client : DeelClient} {o1 o2 : Nat → FetchOutcome}
    {path : String} {params : List (String × Option ParamV)} {w : World} {v : Json}
    {now2 : Int}
    (h1 : (deelRequest client o1 path params w).1 = .ok v) :
    (∃ e, mapGet (deelRequest client o1 path params w).2.1.cache
        (resolvedUrl client.baseUrl path params) = some e ∧ e.data = v) ∧
    (∀ e, mapGet (deelRequest client o1 path params w).2.1.cache
        (resolvedUrl client.baseUrl path params) = some e → ¬ now2 > e.expiresAt →
      deelRequest client o2 path params
          (withNow (deelRequest client o1 path params w).2.1 now2) =
        (.ok v, withNow (deelRequest client o1 path params w).2.1 now2, emptyLog)) := by
  have hpart1 : ∃ e, mapGet (deelRequest client o1 path params w).2.1.cache
      (resolvedUrl client.baseUrl path params) = some e ∧ e.data = v := by
    cases hg : mapGet w.cache (resolvedUrl client.baseUrl path params) with
    | none =>
      rw [deelRequest_mapGet_none hg] at h1 ⊢
      exact ⟨_, requestLoop_ok_entry 3 0 none _ _ v h1, rfl⟩
    | some ent =>
      by_cases hex : w.now > ent.expiresAt
      · rw [deelRequest_expired hg hex] at h1 ⊢
        exact ⟨_, requestLoop_ok_entry 3 0 none _ _ v h1, rfl⟩
      · rw [deelRequest_hit hg hex] at h1 ⊢
        dsimp only at h1 ⊢
        injection h1 with hv
        exact ⟨ent, hg, hv⟩
  refine ⟨hpart1, ?_⟩
  intro e he hexp
  obtain ⟨e0, hg0, hd0⟩ := hpart1
  rw [hg0] at he
  injection he with he0
  subst he0
  have hg2 : mapGet (withNow (deelRequest client o1 path params w).2.1 now2).cache
      (resolvedUrl client.baseUrl path params) = some e0 := hg0
  have hexp2 : ¬ (withNow (deelRequest client o1 path params w).2.1 now2).now > e0.expiresAt :=
    hexp
  rw [deelRequest_hit hg2 hexp2, hd0]

/-- Witness for C3: the spec's round-trip payload fetched once, then served
from cache at a later time with a different (never consulted) upstream. -/
theorem cache_hit_within_ttl_witness :
    deelRequest ⟨DEFAULT_BASE_URL, "t"⟩ (fun _ => .transportError "unused") "/w" []
        (withNow (deelRequest ⟨DEFAULT_BASE_URL, "t"⟩
            (fun _ => .response ⟨200, none, "",
              some (Json.obj [("data", Json.arr [Json.obj [("id", Json.str "1")]]),
                ("page", Json.obj [("cursor", Json.str "abc")])])⟩)
            "/w" [] ⟨0, [], []⟩).2.1 1000) =
      (.ok (Json.obj [("data", Json.arr [Json.obj [("id", Json.str "1")]]),
          ("page", Json.obj [("cursor", Json.str "abc")])]),
        withNow (deelRequest ⟨DEFAULT_BASE_URL, "t"⟩
            (fun _ => .response ⟨200, none, "",
              some (Json.obj [("data", Json.arr [Json.obj [("id", Json.str "1")]]),
                ("page", Json.obj [("cursor", Json.str "abc")])])⟩)
            "/w" [] ⟨0, [], []⟩).2.1 1000, emptyLog) := by
  exact (cache_hit_within_ttl (by rfl)).2
    ⟨Json.obj [("data", Json.arr [Json.obj [("id", Json.str "1")]]),
      ("page", Json.obj [("cursor", Json.str "abc")])], 86400000⟩
    (by rfl) (by decide)

/-- C10 counterexample: the claim says a failing call leaves the cache
unchanged, but `cacheGet` lazily deletes an expired entry during the initial
lookup: starting from a cache holding one (expired) entry for the resolved
URL, a call whose every attempt is a transport failure ends in an error yet
shrinks the cache from one entry to zero. -/
theorem failing_call_mutates_cache_cex :
    (deelRequest ⟨DEFAULT_BASE_URL, "t"⟩ (fun _ => .transportError "boom") "/y" []
        ⟨1, [(resolvedUrl DEFAULT_BASE_URL "/y" [], ⟨Json.str "old", 0⟩)], []⟩).1 =
      .error "boom" ∧
    (deelRequest ⟨DEFAULT_BASE_URL, "t"⟩ (fun _ => .transportError "boom") "/y" []
        ⟨1, [(resolvedUrl DEFAULT_BASE_URL "/y" [], ⟨Json.str "old", 0⟩)], []⟩).2.1.cache.length = 0 ∧
    ((⟨1, [(resolvedUrl DEFAULT_BASE_URL "/y" [], ⟨Json.str "old", 0⟩)], []⟩ : World)).cache.length = 1 :=
  ⟨rfl, rfl, rfl⟩

/-- C10 (amended): a failing `deelRequest` call never adds or overwrites a
cache entry — writes happen only on the 2xx-with-valid-JSON success path —
but it may lazily delete an expired entry for the resolved URL during the
initial cache lookup: on failure the final cache is either exactly the
initial cache, or the initial cache with that one expired entry removed. -/
theorem failure_never_writes_cache {client : DeelClient} {o : Nat → FetchOutcome}
    {path : String} {params : List (String × Option ParamV)} {w : World} {e : String}
    (h : (deelRequest client o path params w).1 = .error e) :
    (deelRequest client o path params w).2.1.cache = w.cache ∨
    (∃ ent, mapGet w.cache (resolvedUrl client.baseUrl path params) = some ent ∧
      w.now > ent.expiresAt ∧
      (deelRequest client o path params w).2.1.cache =
        mapDelete w.cache (resolvedUrl client.baseUrl path params)) := by
  cases hg : mapGet w.cache (resolvedUrl client.baseUrl path params) with
  | none =>
    left
    rw [deelRequest_mapGet_none hg] at h ⊢
    rw [requestLoop_error_cache 3 0 none _ _ e h, waitForSlot_cache]
  | some ent =>
    by_cases hex : w.now > ent.expiresAt
    · right
      refine ⟨ent, rfl, hex, ?_⟩
      rw [deelRequest_expired hg hex] at h ⊢
      rw [requestLoop_error_cache 3 0 none _ _ e h, waitForSlot_cache]
    · rw [deelRequest_hit hg hex] at h
      simp at h

/-- Witness for the amended C10: a clean-cache failing call leaves the
cache exactly as it was. -/
theorem failure_never_writes_cache_witness :
    (deelRequest ⟨DEFAULT_BASE_URL, "t"⟩ (fun _ => .transportError "down") "/z" []
        ⟨0, [], []⟩).2.1.cache = (⟨0, [], []⟩ : World).cache ∨
    (∃ ent, mapGet (⟨0, [], []⟩ : World).cache (resolvedUrl DEFAULT_BASE_URL "/z" []) = some ent ∧
      (⟨0, [], []⟩ : World).now > ent.expiresAt ∧
      (deelRequest ⟨DEFAULT_BASE_URL, "t"⟩ (fun _ => .transportError "down") "/z" []
          ⟨0, [], []⟩).2.1.cache =
        mapDelete (⟨0, [], []⟩ : World).cache (resolvedUrl DEFAULT_BASE_URL "/z" [])) := by
  exact failure_never_writes_cache (by rfl)

/- ### Query-string construction lemmas -/

/-- The keys of `params` whose value is defined (not `undefined`). -/
def definedKeys (params : List (String × Option ParamV)) : List String :=
  params.filterMap (fun kv => kv.2.map (fun _ => kv.1))

theorem definedKeys_subset_keys {params : List (String × Option ParamV)} {x : String}
    (hx : x ∈ definedKeys params) : x ∈ params.map Prod.fst := by
  obtain ⟨kv, hkv, hf⟩ := List.mem_filterMap.mp hx
  cases hv : kv.2 with
  | none => rw [hv] at hf; cases hf
  | some v =>
    rw [hv] at hf
    injection hf with hf
    subst hf
    exact List.mem_map_of_mem _ hkv

theorem mem_setParam_self (q : List (String × String)) (k v : String) :
    (k, v) ∈ setParam q k v := by
  induction q with
  | nil => simp [setParam]
  | cons e rest ih =>
    by_cases h : e.1 = k
    · simp [setParam, h]
    · simp only [setParam, if_neg h]
      exact List.mem_cons_of_mem _ ih

theorem mem_setParam_of_ne {q : List (String × String)} {k x : String} (k' v' : String)
    (hne : k ≠ k') (hm : (k, x) ∈ q) : (k, x) ∈ setParam q k' v' := by
  induction q with
  | nil => cases hm
  | cons e rest ih =>
    rcases List.mem_cons.mp hm with he | hr
    · by_cases h : e.1 = k'
      · exfalso
        rw [← he] at h
        exact hne h
      · simp only [setParam, if_neg h]
        exact List.mem_cons.mpr (Or.inl he)
    · by_cases h : e.1 = k'
      · simp only [setParam, if_pos h]
        refine List.mem_cons_of_mem _ (List.mem_filter.mpr ⟨hr, ?_⟩)
        simp [hne]
      · simp only [setParam, if_neg h]
        exact List.mem_cons_of_mem _ (ih hr)

theorem setParam_keys {q : List (String × String)} {k v : String} {p : String × String}
    (hp : p ∈ setParam q k v) : p.1 = k ∨ p ∈ q := by
  induction q with
  | nil =>
    simp only [setParam] at hp
    rcases List.mem_singleton.mp hp with h
    rw [h]
    exact Or.inl rfl
  | cons e rest ih =>
    by_cases h : e.1 = k
    · simp only [setParam, if_pos h] at hp
      rcases List.mem_cons.mp hp with he | hr
      · rw [he]; exact Or.inl rfl
      · exact Or.inr (List.mem_cons_of_mem _ (List.mem_filter.mp hr).1)
    · simp only [setParam, if_neg h] at hp
      rcases List.mem_cons.mp hp with he | hr
      · exact Or.inr (List.mem_cons.mpr (Or.inl he))
      · rcases ih hr with h1 | h2
        · exact Or.inl h1
        · exact Or.inr (List.mem_cons_of_mem _ h2)

/-- The `Object.entries` loop body of `deelRequest`. -/
def paramStep (q : List (String × String)) (kv : String × Option ParamV) :
    List (String × String) :=
  match kv.2 with
  | none => q
  | some v => setParam q kv.1 v.coerce

theorem buildQuery_eq_foldl (params : List (String × Option ParamV)) :
    buildQuery params = params.foldl paramStep [] := by
  unfold buildQuery paramStep
  rfl

theorem foldl_paramStep_keys (params : List (String × Option ParamV)) :
    ∀ (q : List (String × String)) (p : String × String), p ∈ params.foldl paramStep q →
    p.1 ∈ q.map Prod.fst ∨ p.1 ∈ definedKeys params := by
  induction params with
  | nil =>
    intro q p hp
    exact Or.inl (List.mem_map_of_mem _ hp)
  | cons kv rest ih =>
    intro q p hp
    rcases ih (paramStep q kv) p hp with hq | hdk
    · cases hv : kv.2 with
      | none =>
        simp only [paramStep, hv] at hq
        exact Or.inl hq
      | some v =>
        simp only [paramStep, hv] at hq
        obtain ⟨p', hp', hfst⟩ := List.mem_map.mp hq
        rcases setParam_keys hp' with h1 | h2
        · right
          simp [definedKeys, hv, ← hfst, h1]
        · exact Or.inl (hfst ▸ List.mem_map_of_mem _ h2)
    · right
      simp only [definedKeys, List.filterMap_cons]
      cases hv : kv.2 <;> simp [definedKeys] at hdk ⊢ <;> simp [hdk]

theorem not_mem_definedKeys {params : List (String × Option ParamV)} {k : String}
    (hmem : (k, (none : Option ParamV)) ∈ params)
    (hnd : (params.map Prod.fst).Nodup) : k ∉ definedKeys params := by
  induction params with
  | nil => cases hmem
  | cons kv rest ih =>
    have hnd1 : kv.1 ∉ rest.map Prod.fst := by
      simp only [List.map_cons, List.nodup_cons] at hnd
      exact hnd.1
    have hnd2 : (rest.map Prod.fst).Nodup := by
      simp only [List.map_cons, List.nodup_cons] at hnd
      exact hnd.2
    rcases List.mem_cons.mp hmem with he | hr
    · have hkv2 : kv.2 = none := by rw [← he]
      have hk1 : kv.1 = k := by rw [← he]
      intro hk
      simp only [definedKeys, List.filterMap_cons, hkv2] at hk
      exact hnd1 (hk1 ▸ definedKeys_subset_keys hk)
    · intro hk
      simp only [definedKeys, List.filterMap_cons] at hk
      cases hv : kv.2 with
      | none =>
        rw [hv] at hk
        exact ih hr hnd2 hk
      | some v =>
        rw [hv] at hk
        simp only [Option.map_some'] at hk
        rcases List.mem_cons.mp hk with h1 | h2
        · refine hnd1 ?_
          rw [← h1]
          exact List.mem_map_of_mem _ hr
        · exact ih hr hnd2 h2

theorem foldl_paramStep_preserves {rest : List (String × Option ParamV)} {k x : String}
    (hk : k ∉ definedKeys rest) :
    ∀ q, (k, x) ∈ q → (k, x) ∈ rest.foldl paramStep q := by
  induction rest with
  | nil => intro q h; exact h
  | cons kv rs ih =>
    intro q hq
    cases hv : kv.2 with
    | none =>
      have hk2 : k ∉ definedKeys rs := by
        intro hx
        exact hk (by simpa [definedKeys, hv] using hx)
      have : paramStep q kv = q := by simp [paramStep, hv]
      rw [List.foldl_cons, this]
      exact ih hk2 q hq
    | some v =>
      have hkk : ¬ (k = kv.1 ∨ k ∈ definedKeys rs) := by
        intro hx
        exact hk (by simpa [definedKeys, hv] using hx)
      push_neg at hkk
      have : paramStep q kv = setParam q kv.1 v.coerce := by simp [paramStep, hv]
      rw [List.foldl_cons, this]
      exact ih hkk.2 _ (mem_setParam_of_ne _ _ hkk.1 hq)

theorem foldl_paramStep_mem {params : List (String × Option ParamV)} {k : String} {v : ParamV}
    (hmem : (k, some v) ∈ params) (hnd : (params.map Prod.fst).Nodup) :
    ∀ q, (k, v.coerce) ∈ params.foldl paramStep q := by
  induction params with
  | nil => cases hmem
  | cons kv rest ih =>
    intro q
    have hnd1 : kv.1 ∉ rest.map Prod.fst := by
      simp only [List.map_cons, List.nodup_cons] at hnd
      exact hnd.1
    have hnd2 : (rest.map Prod.fst).Nodup := by
      simp only [List.map_cons, List.nodup_cons] at hnd
      exact hnd.2
    rcases List.mem_cons.mp hmem with he | hr
    · have hk1 : kv.1 = k := by rw [← he]
      have hk2 : kv.2 = some v := by rw [← he]
      rw [List.foldl_cons]
      have hstep : paramStep q kv = setParam q k v.coerce := by
        simp [paramStep, hk2, hk1]
      rw [hstep]
      have hkdk : k ∉ definedKeys rest :=
        fun hx => (hk1 ▸ hnd1) (definedKeys_subset_keys hx)
      exact foldl_paramStep_preserves hkdk _ (mem_setParam_self q k v.coerce)
    · rw [List.foldl_cons]
      exact ih hr hnd2 _

/-- C4: each `params` entry with a defined value appears in the resolved
URL's query pairs string-coerced, `undefined` entries are omitted entirely
(keys of JS objects are unique, hence the Nodup hypothesis), and in
particular `params = { limit: 10, cursor: undefined }` resolves to a URL
containing `limit=10` and no occurrence of `cursor` at all. -/
theorem query_params_resolution {params : List (String × Option ParamV)} {k1 k2 : String}
    {v : ParamV} (hnd : (params.map Prod.fst).Nodup) :
    ((k1, some v) ∈ params → (k1, v.coerce) ∈ buildQuery params) ∧
    ((k2, none) ∈ params → k2 ∉ (buildQuery params).map Prod.fst) ∧
    resolvedUrl DEFAULT_BASE_URL "/contracts" [("limit", some (ParamV.num 10)), ("cursor", none)] =
      "https://api.letsdeel.com/rest/v2/contracts?limit=10" ∧
    strContains (resolvedUrl DEFAULT_BASE_URL "/contracts"
      [("limit", some (ParamV.num 10)), ("cursor", none)]) "limit=10" ∧
    ¬ strContains (resolvedUrl DEFAULT_BASE_URL "/contracts"
      [("limit", some (ParamV.num 10)), ("cursor", none)]) "cursor" := by
  refine ⟨?_, ?_, by decide, by decide, by decide⟩
  · intro hmem
    rw [buildQuery_eq_foldl]
    exact foldl_paramStep_mem hmem hnd []
  · intro hmem hin
    rw [buildQuery_eq_foldl] at hin
    obtain ⟨p, hp, hfst⟩ := List.mem_map.mp hin
    rcases foldl_paramStep_keys params [] p hp with h0 | hdk
    · simp at h0
    · exact not_mem_definedKeys hmem hnd (hfst ▸ hdk)

/-- Witness for C4 at `params = [("limit", 10), ("cursor", undefined)]`. -/
theorem query_params_resolution_witness :
    ((("limit", some (ParamV.num 10)) ∈
        ([("limit", some (ParamV.num 10)), ("cursor", none)] : List (String × Option ParamV)) →
      ("limit", (ParamV.num 10).coerce) ∈
        buildQuery [("limit", some (ParamV.num 10)), ("cursor", none)]) ∧
    ((("cursor" : String), (none : Option ParamV)) ∈
        ([("limit", some (ParamV.num 10)), ("cursor", none)] : List (String × Option ParamV)) →
      "cursor" ∉ (buildQuery [("limit", some (ParamV.num 10)), ("cursor", none)]).map Prod.fst) ∧
    resolvedUrl DEFAULT_BASE_URL "/contracts" [("limit", some (ParamV.num 10)), ("cursor", none)] =
      "https://api.letsdeel.com/rest/v2/contracts?limit=10" ∧
    strContains (resolvedUrl DEFAULT_BASE_URL "/contracts"
      [("limit", some (ParamV.num 10)), ("cursor", none)]) "limit=10" ∧
    ¬ strContains (resolvedUrl DEFAULT_BASE_URL "/contracts"
      [("limit", some (ParamV.num 10)), ("cursor", none)]) "cursor") :=
  query_params_resolution (by decide)
